import Mathlib

/-!
Verification of the build-time asset path rewriter of `astro-electron-ts`,
as implemented in the `astro:build:done` hook
(src/templates/base/src/pages/index.astro, integration code, lines 210-428).

The hook reads every emitted route document, computes a hash-routing flag
(`isHashRoutingComponent`), runs three text passes over the document
(a hydrate-attribute pass, a main `href/src/to` + dynamic-import pass and a
final cleanup pass), and writes the result back.  Pure string transforms are
embedded directly; the JavaScript regular expressions are embedded as
explicit scanners over `List Char` that reproduce the leftmost, global
replacement behaviour of `String.prototype.replace` for the concrete
patterns appearing in the source.
-/

namespace AstroElectron

/-- The double-quote character (JS `"`). -/
def dq : Char := Char.ofNat 34

/-- The single-quote character (JS `'`). -/
def sq : Char := Char.ofNat 39

/-- Boolean list-prefix test (our own, to keep proofs elementary). -/
def isPre : List Char → List Char → Bool
  | [], _ => true
  | _ :: _, [] => false
  | a :: as, b :: bs => if a = b then isPre as bs else false

/-- Boolean list-suffix test, via reversal. -/
def isSuf (p l : List Char) : Bool := isPre p.reverse l.reverse

/-- JS `s.startsWith(p)`. -/
def strStartsWith (s p : String) : Bool := isPre p.data s.data

/-- JS `s.endsWith(p)`. -/
def strEndsWith (s p : String) : Bool := isSuf p.data s.data

/-- Drop the first `n` characters of a string (JS `s.slice(n)` on ASCII text). -/
def strDrop (s : String) (n : Nat) : String := ⟨s.data.drop n⟩

/-- JS `s.includes(sub)` at list level. -/
def containsSub (needle : List Char) : List Char → Bool
  | [] => needle.isEmpty
  | c :: t => isPre needle (c :: t) || containsSub needle t

/-- JS `s.includes(sub)`. -/
def strIncludes (s sub : String) : Bool := containsSub sub.data s.data

/-- JS `pathname.replace(/^\/+/, '')` — strip all leading slashes. -/
def stripLeadingSlashes (s : String) : String := ⟨s.data.dropWhile (· = '/')⟩

/-- JS `cleanPath.replace(/\/+$/, '')` — strip all trailing slashes. -/
def stripTrailingSlashes (s : String) : String :=
  ⟨(s.data.reverse.dropWhile (· = '/')).reverse⟩

/-- The recognised static-asset extensions, from the regex
`/\.(js|css|png|jpg|jpeg|gif|svg|ico)$/` (index.astro lines 374-376). -/
def assetExtensions : List String :=
  [".js", ".css", ".png", ".jpg", ".jpeg", ".gif", ".svg", ".ico"]

/-- Whether `cleanPath.match(/\.(js|css|png|jpg|jpeg|gif|svg|ico)$/)` is non-null. -/
def isAssetPath (s : String) : Bool :=
  assetExtensions.any (fun e => strEndsWith s e)

/-- The hash-router signature substrings (index.astro lines 231-238). -/
def hashRoutingPatterns : List String :=
  ["createHashRouter", "createWebHashHistory", "HashRouter",
   "useHashRouter", "mode: \"hash\"", "type: \"hash\""]

/-- Function `isHashRoutingComponent` (index.astro lines 229-246): the document is
treated as hash-routing when its path contains `router` or its content
contains one of the recognised router signatures. -/
def isHashRoutingComponent (content filePath : String) : Bool :=
  strIncludes filePath "router" ||
    hashRoutingPatterns.any (fun p => strIncludes content p)

/-- Value-level embedding of the `(href|src|to)="..."` attribute branch of the
main replacement callback (index.astro lines 358-408).  The source callback
returns the whole `attr="value"` text; since the matched value can contain no
double quote, returning the match unchanged is the same as re-wrapping the
original value, so this function computes the new attribute value and the
scanner wraps it.  Branch order follows the source exactly. -/
def rewriteAttrValue (isHashRouting : Bool) (distPath : String)
    (pathname : String) : String :=
  if pathname = "" then pathname
  else if strStartsWith pathname "./" || strStartsWith pathname "../" then
    pathname
  else
    let cleanPath := stripLeadingSlashes pathname
    if strStartsWith cleanPath "_astro/" then
      "./_astro/" ++ strDrop cleanPath 6
    else if isAssetPath cleanPath then
      "./" ++ cleanPath
    else if strStartsWith pathname "/#/" then
      strDrop pathname 1
    else if strStartsWith pathname "#/" then
      pathname
    else if isHashRouting then
      "#/" ++ stripTrailingSlashes cleanPath
    else if pathname = "/" then
      "file://" ++ distPath ++ "/index.html"
    else
      let targetPath :=
        if strEndsWith cleanPath ".html" then cleanPath
        else cleanPath ++ "/index.html"
      "file://" ++ distPath ++ "/" ++ targetPath

/-- The dynamic-import branch of the main callback leaves the match unchanged
exactly when the specifier is empty (falsy) or its cleaned value is already
relative (index.astro lines 344-351). -/
def importUnchanged (importPath : String) : Bool :=
  importPath = "" ||
    strStartsWith (stripLeadingSlashes importPath) "./" ||
    strStartsWith (stripLeadingSlashes importPath) "../"

/-- Value-level embedding of the dynamic-import branch of the main callback
(index.astro lines 344-356).  For unchanged specifiers it returns the
original value; otherwise the new specifier value. -/
def rewriteImportValue (importPath : String) : String :=
  if importUnchanged importPath then importPath
  else
    let cleanImportPath := stripLeadingSlashes importPath
    if strStartsWith cleanImportPath "_astro/" then
      "./_astro/" ++ strDrop cleanImportPath 6
    else
      "./_astro/" ++ cleanImportPath

/-- Value-level embedding of the hydrate-pass callback (index.astro lines
330-336): strip leading slashes, then prefix with `./_astro/` (dropping only
the six characters `_astro` — not the following slash — when the cleaned
value starts with `_astro/`).  Note there is no already-relative exemption. -/
def hydrateValueRewrite (hydratePath : String) : String :=
  let cleanPath := stripLeadingSlashes hydratePath
  if strStartsWith cleanPath "_astro/" then
    "./_astro/" ++ strDrop cleanPath 6
  else
    "./_astro/" ++ cleanPath

/-- Full replacement text emitted by the hydrate-pass callback: always a
double-quoted `hydrate="..."` attribute. -/
def hydrateReplacement (hydratePath : String) : String :=
  "hydrate=\"" ++ hydrateValueRewrite hydratePath ++ "\""

/-- JS `\w` character class: `[A-Za-z0-9_]`. -/
def isWordChar (c : Char) : Bool :=
  (('a' ≤ c && c ≤ 'z') || ('A' ≤ c && c ≤ 'Z') ||
   ('0' ≤ c && c ≤ '9') || c = '_')

/-- Quote character class `["']` of the source regexes. -/
def isQuote (c : Char) : Bool := c = dq || c = sq

/-- JS `\s` whitespace class (the members that can occur in build output). -/
def isJsSpace (c : Char) : Bool :=
  c = ' ' || c = Char.ofNat 9 || c = Char.ofNat 10 || c = Char.ofNat 13 ||
  c = Char.ofNat 11 || c = Char.ofNat 12 || c = Char.ofNat 0xa0 ||
  c = Char.ofNat 0x2028 || c = Char.ofNat 0x2029 || c = Char.ofNat 0xfeff

/-- JS `.` (no `s` flag): any character except line terminators. -/
def dotMatch (c : Char) : Bool :=
  !(c = Char.ofNat 10 || c = Char.ofNat 13 ||
    c = Char.ofNat 0x2028 || c = Char.ofNat 0x2029)

/-- Attempt to match `hydrate=["']([^"']+)["']` at the head of `l`
(the `\b` word-boundary condition is checked by the caller).  Returns the
captured hydrate path and the remainder after the closing quote. -/
def matchHydrateAt (l : List Char) : Option (String × List Char) :=
  if isPre "hydrate=".data l then
    match l.drop 8 with
    | [] => none
    | q :: rest =>
      if isQuote q then
        let run := rest.takeWhile (fun c => !isQuote c)
        match rest.dropWhile (fun c => !isQuote c) with
        | [] => none
        | _ :: rest' => if run.isEmpty then none else some (⟨run⟩, rest')
      else none
  else none

/-- One fuelled left-to-right pass of
`file.replace(/\bhydrate=["']([^"']+)["']/g, ...)` (index.astro lines
328-337).  `prevW` records whether the previous character of the original
text is a word character (for the `\b` boundary).  Fuel equal to the input
length is always sufficient: every step consumes at least one character. -/
def hydrateScan : Nat → Bool → List Char → List Char
  | 0, _, l => l
  | _ + 1, _, [] => []
  | fuel + 1, prevW, c :: cs =>
    match (if prevW then none else matchHydrateAt (c :: cs)) with
    | some (p, rest) =>
      (hydrateReplacement p).data ++ hydrateScan fuel false rest
    | none => c :: hydrateScan fuel (isWordChar c) cs

/-- A match of the main-pass regex
`(href|src|to)="([^"]*?)"|import\s*\(['"](.*?)['"]\)`. -/
inductive MainMatch where
  /-- An attribute match `attr="pathname"` with `attr` one of href, src, to. -/
  | attr (name pathname : String)
  /-- A dynamic-import match; `original` is the exact matched text (returned
  verbatim when the callback leaves the import unchanged). -/
  | imp (original : List Char) (importPath : String)

/-- Lazy `(.*?)['"]\)` tail of the import alternative: the shortest run of
dot-matchable characters followed by a quote and a closing parenthesis.
Returns the captured specifier and the remainder after `)`. -/
def importTail : List Char → Option (List Char × List Char)
  | [] => none
  | c :: cs =>
    if isQuote c then
      match cs with
      | ')' :: rest => some ([], rest)
      | _ =>
        if dotMatch c then
          (importTail cs).map (fun r => (c :: r.1, r.2))
        else none
    else if dotMatch c then
      (importTail cs).map (fun r => (c :: r.1, r.2))
    else none

/-- Attempt to match the `(href|src|to)="([^"]*?)"` alternative at the head
of `l`. -/
def matchAttrAt (l : List Char) : Option (MainMatch × List Char) :=
  (["href", "src", "to"].firstM (fun name =>
    if isPre (name ++ "=\"").data l then
      let rest := l.drop (name.length + 2)
      let pathname := rest.takeWhile (fun c => c ≠ dq)
      match rest.dropWhile (fun c => c ≠ dq) with
      | [] => none
      | _ :: rest' => some (MainMatch.attr name ⟨pathname⟩, rest')
    else none))

/-- Attempt to match the `import\s*\(['"](.*?)['"]\)` alternative at the head
of `l`. -/
def matchImportAt (l : List Char) : Option (MainMatch × List Char) :=
  if isPre "import".data l then
    let rest1 := (l.drop 6).dropWhile isJsSpace
    match rest1 with
    | '(' :: rest2 =>
      match rest2 with
      | [] => none
      | q :: rest3 =>
        if isQuote q then
          match importTail rest3 with
          | some (cap, rest4) =>
            some (MainMatch.imp (l.take (l.length - rest4.length)) ⟨cap⟩, rest4)
          | none => none
        else none
    | _ => none
  else none

/-- Try both alternatives of the main-pass regex at the head of `l` (their
first characters are disjoint, so alternation order is immaterial). -/
def matchMainAt (l : List Char) : Option (MainMatch × List Char) :=
  match matchAttrAt l with
  | some r => some r
  | none => matchImportAt l

/-- The main replacement callback (index.astro lines 342-409), producing the
full replacement text for one match. -/
def mainReplacement (isHashRouting : Bool) (distPath : String) :
    MainMatch → List Char
  | .attr name pathname =>
    (name ++ "=\"" ++ rewriteAttrValue isHashRouting distPath pathname
      ++ "\"").data
  | .imp original importPath =>
    if importUnchanged importPath then original
    else ("import(\"" ++ rewriteImportValue importPath ++ "\")").data

/-- Fuelled left-to-right pass of the main replacement
(index.astro lines 340-410). -/
def mainScan (isHashRouting : Bool) (distPath : String) :
    Nat → List Char → List Char
  | 0, l => l
  | _ + 1, [] => []
  | fuel + 1, c :: cs =>
    match matchMainAt (c :: cs) with
    | some (m, rest) =>
      mainReplacement isHashRouting distPath m ++
        mainScan isHashRouting distPath fuel rest
    | none => c :: mainScan isHashRouting distPath fuel cs

/-- Attempt to match the cleanup regex `(['"])\/\.?\/_astro\/` at the head of
`l`; on success return the replacement `$1./_astro/` and the remainder. -/
def matchCleanupAt (l : List Char) : Option (List Char × List Char) :=
  match l with
  | q :: rest =>
    if isQuote q then
      if isPre "/./_astro/".data rest then
        some (q :: "./_astro/".data, rest.drop 10)
      else if isPre "//_astro/".data rest then
        some (q :: "./_astro/".data, rest.drop 9)
      else none
    else none
  | [] => none

/-- Fuelled left-to-right pass of
`updatedContent.replace(/(['"])\/\.?\/_astro\//g, '$1./_astro/')`
(index.astro lines 413-416). -/
def cleanupScan : Nat → List Char → List Char
  | 0, l => l
  | _ + 1, [] => []
  | fuel + 1, c :: cs =>
    match matchCleanupAt (c :: cs) with
    | some (repl, rest) => repl ++ cleanupScan fuel rest
    | none => c :: cleanupScan fuel cs

/-- The complete per-document transform of the `astro:build:done` hook
(index.astro lines 320-418): compute the hash-routing flag once from the
original content and path, then run the hydrate pass, the main pass and the
cleanup pass in order.  `distPath` is the forward-slash form of
`path.join(projectRoot, 'dist')` computed by the hook. -/
def transformDoc (distPath filePath file : String) : String :=
  let isHR := isHashRoutingComponent file filePath
  let s1 := hydrateScan file.data.length false file.data
  let s2 := mainScan isHR distPath s1.length s1
  let s3 := cleanupScan s2.length s2
  ⟨s3⟩

/-! ### Helper lemmas -/

theorem strdata_append (a b : String) : (a ++ b).data = a.data ++ b.data := rfl

theorem isPre_iff {p l : List Char} : isPre p l = true ↔ ∃ t, l = p ++ t := by
  induction p generalizing l with
  | nil => simp [isPre]
  | cons a as ih =>
    cases l with
    | nil => simp [isPre]
    | cons b bs =>
      by_cases hab : a = b
      · subst hab
        simp [isPre, ih]
      · simp only [isPre, if_neg hab, List.cons_append, List.cons.injEq,
          false_iff, not_exists]
        simp only [Bool.false_eq_true, false_iff, not_exists]
        rintro t ⟨h1, -⟩
        exact hab h1.symm

theorem isPre_head_ne {a b : Char} {p t : List Char} (hne : a ≠ b) :
    isPre (a :: p) (b :: t) = false := by
  simp [isPre, hne]

theorem dropWhile_head_not {p : Char → Bool} {l : List Char} {c : Char}
    {t : List Char} (h : l.dropWhile p = c :: t) : p c = false := by
  induction l with
  | nil => simp at h
  | cons a as ih =>
    by_cases hp : p a
    · exact ih (by simpa [List.dropWhile, hp] using h)
    · simp only [List.dropWhile, hp] at h
      injection h with h1 _
      subst h1
      simpa using hp

theorem stripLeading_spec (v : String) :
    ∃ s, v.data = s ++ (stripLeadingSlashes v).data ∧ ∀ c ∈ s, c = '/' := by
  refine ⟨v.data.takeWhile (fun c => decide (c = '/')), ?_, ?_⟩
  · simp [stripLeadingSlashes]
  · intro c hc
    simpa using List.mem_takeWhile_imp hc

theorem clean_head_ne_slash {v : String} {c : Char} {t : List Char}
    (h : (stripLeadingSlashes v).data = c :: t) : c ≠ '/' := by
  have := dropWhile_head_not (p := fun c => decide (c = '/'))
    (l := v.data) (by simpa [stripLeadingSlashes] using h)
  simpa using this

/-- When the cleaned value starts with a character other than `.` and `#`,
the raw value fails every already-relative and hash-route test of the
classifier (its characters up to the cleaned head are all slashes). -/
theorem clean_head_tests {v : String} {c : Char} {t : List Char}
    (h : (stripLeadingSlashes v).data = c :: t)
    (hdot : c ≠ '.') (hhash : c ≠ '#') :
    strStartsWith v "./" = false ∧ strStartsWith v "../" = false ∧
    strStartsWith v "#/" = false ∧ strStartsWith v "/#/" = false ∧
    v ≠ "" := by
  have hslash : c ≠ '/' := clean_head_ne_slash h
  obtain ⟨s, hs, hall⟩ := stripLeading_spec v
  rw [h] at hs
  have hv : v ≠ "" := by
    intro he
    rw [he] at hs
    cases s <;> simp at hs
  refine ⟨?_, ?_, ?_, ?_, hv⟩
  · show isPre "./".data v.data = false
    rw [hs]; cases s with
    | nil => exact isPre_head_ne (Ne.symm hdot)
    | cons a s' =>
      rw [hall a (by simp)]
      exact isPre_head_ne (by decide)
  · show isPre "../".data v.data = false
    rw [hs]; cases s with
    | nil => exact isPre_head_ne (Ne.symm hdot)
    | cons a s' =>
      rw [hall a (by simp), List.cons_append]
      show (if ('.' : Char) = '/' then _ else false) = false
      simp
  · show isPre "#/".data v.data = false
    rw [hs]; cases s with
    | nil => exact isPre_head_ne (Ne.symm hhash)
    | cons a s' =>
      rw [hall a (by simp)]
      exact isPre_head_ne (by decide)
  · show isPre "/#/".data v.data = false
    rw [hs]; cases s with
    | nil => exact isPre_head_ne (Ne.symm hslash).symm.symm
    | cons a s' =>
      rw [hall a (by simp), List.cons_append]
      show (if ('/' : Char) = '/' then isPre "#/".data (s' ++ c :: t)
        else false) = false
      rw [if_pos rfl]
      cases s' with
      | nil => exact isPre_head_ne (Ne.symm hhash)
      | cons b s'' =>
        rw [hall b (by simp), List.cons_append]
        exact isPre_head_ne (by decide)

/-- An attribute value that already starts with `./` or `../` is returned
unchanged by the main callback (index.astro lines 361-363). -/
theorem attr_rel_unchanged {hr : Bool} {dist v : String}
    (h : strStartsWith v "./" = true ∨ strStartsWith v "../" = true) :
    rewriteAttrValue hr dist v = v := by
  have hne : v ≠ "" := by
    rcases h with h | h <;> obtain ⟨t, ht⟩ := isPre_iff.mp h <;>
      (intro he; rw [he] at ht; simp at ht)
  simp only [rewriteAttrValue]
  rw [if_neg hne, if_pos (by rcases h with h | h <;> simp [h])]

/-- An attribute value starting with `#/` whose cleaned value has no asset
extension is returned unchanged (index.astro lines 382-387). -/
theorem attr_hash_unchanged {hr : Bool} {dist v : String}
    (hs : strStartsWith v "#/" = true)
    (hasset : isAssetPath (stripLeadingSlashes v) = false) :
    rewriteAttrValue hr dist v = v := by
  obtain ⟨t, ht⟩ := isPre_iff.mp hs
  have hv : v.data = '#' :: '/' :: t := by rw [ht]; rfl
  have hne : v ≠ "" := by intro he; rw [he] at hv; simp at hv
  have hcl : (stripLeadingSlashes v).data = '#' :: '/' :: t := by
    show v.data.dropWhile (fun c => decide (c = '/')) = _
    rw [hv]; rfl
  have hrel1 : strStartsWith v "./" = false := by
    show isPre "./".data v.data = false; rw [hv]; rfl
  have hrel2 : strStartsWith v "../" = false := by
    show isPre "../".data v.data = false; rw [hv]; rfl
  have hastro : strStartsWith (stripLeadingSlashes v) "_astro/" = false := by
    show isPre "_astro/".data (stripLeadingSlashes v).data = false
    rw [hcl]; rfl
  have hsh : strStartsWith v "/#/" = false := by
    show isPre "/#/".data v.data = false; rw [hv]; rfl
  simp only [rewriteAttrValue]
  rw [if_neg hne, if_neg (by simp [hrel1, hrel2]), if_neg (by simp [hastro]),
    if_neg (by simp [hasset]), if_neg (by simp [hsh]), if_pos hs]

/-- An import specifier whose cleaned value is already relative (or which is
empty) leaves the whole matched text unchanged (index.astro lines 344-351). -/
theorem import_unchanged_repl {hr : Bool} {dist : String} {orig : List Char}
    {v : String} (h : importUnchanged v = true) :
    mainReplacement hr dist (MainMatch.imp orig v) = orig := by
  simp [mainReplacement, h]

/-- A hydrate value starting with `./` or `../` is still rewritten — the
hydrate pass has no already-relative exemption (index.astro lines 330-336). -/
theorem hydrate_rel_rewritten {v : String}
    (h : strStartsWith v "./" = true ∨ strStartsWith v "../" = true) :
    hydrateValueRewrite v = "./_astro/" ++ v := by
  have hv : ∃ r, v.data = '.' :: r := by
    rcases h with h | h <;> obtain ⟨t, ht⟩ := isPre_iff.mp h
    · exact ⟨'/' :: t, by rw [ht]; rfl⟩
    · exact ⟨'.' :: '/' :: t, by rw [ht]; rfl⟩
  obtain ⟨r, hv⟩ := hv
  have hcl : stripLeadingSlashes v = v := by
    apply String.ext
    show v.data.dropWhile (fun c => decide (c = '/')) = v.data
    rw [hv]; rfl
  have hastro : strStartsWith (stripLeadingSlashes v) "_astro/" = false := by
    rw [hcl]
    show isPre "_astro/".data v.data = false
    rw [hv]; rfl
  simp only [hydrateValueRewrite]
  rw [if_neg (by simp [hastro]), hcl]

/-- The cleaned value of an already-relative value is the value itself. -/
theorem strip_rel_self {v : String}
    (h : strStartsWith v "./" = true ∨ strStartsWith v "../" = true) :
    stripLeadingSlashes v = v := by
  have hv : ∃ r, v.data = '.' :: r := by
    rcases h with h | h <;> obtain ⟨t, ht⟩ := isPre_iff.mp h
    · exact ⟨'/' :: t, by rw [ht]; rfl⟩
    · exact ⟨'.' :: '/' :: t, by rw [ht]; rfl⟩
  obtain ⟨r, hv⟩ := hv
  apply String.ext
  show v.data.dropWhile (fun c => decide (c = '/')) = v.data
  rw [hv]; rfl

/-! ### Claim C2 -/

/-- Claim C2 (amended): every reference whose cleaned value begins with
`_astro/` — attribute, hydration marker or dynamic-import specifier — is
rewritten to `./_astro/` followed by the cleaned value minus its first six
characters, which still begins with the slash after `_astro`; the rewritten
value therefore reads `./_astro//<rest>` with a double slash (the source
drops only `cleanPath.slice(6)`, keeping the slash of `_astro/`).
-/
theorem astro_dir_rewrite_double_slash (hr : Bool) (dist v : String)
    (h : strStartsWith (stripLeadingSlashes v) "_astro/" = true) :
    rewriteAttrValue hr dist v =
        "./_astro/" ++ strDrop (stripLeadingSlashes v) 6 ∧
    hydrateValueRewrite v =
        "./_astro/" ++ strDrop (stripLeadingSlashes v) 6 ∧
    rewriteImportValue v =
        "./_astro/" ++ strDrop (stripLeadingSlashes v) 6 ∧
    strStartsWith (strDrop (stripLeadingSlashes v) 6) "/" = true := by
  obtain ⟨t, ht⟩ := isPre_iff.mp h
  have hhead : (stripLeadingSlashes v).data =
      '_' :: 'a' :: 's' :: 't' :: 'r' :: 'o' :: '/' :: t := by
    rw [ht]; rfl
  obtain ⟨h1, h2, h3, h4, h5⟩ := clean_head_tests hhead (by decide) (by decide)
  have hrel : ¬(strStartsWith v "./" || strStartsWith v "../") = true := by
    simp [h1, h2]
  have hclean1 : strStartsWith (stripLeadingSlashes v) "./" = false := by
    show isPre "./".data (stripLeadingSlashes v).data = false
    rw [hhead]; exact isPre_head_ne (by decide)
  have hclean2 : strStartsWith (stripLeadingSlashes v) "../" = false := by
    show isPre "../".data (stripLeadingSlashes v).data = false
    rw [hhead]; exact isPre_head_ne (by decide)
  refine ⟨?_, ?_, ?_, ?_⟩
  · simp only [rewriteAttrValue]
    rw [if_neg h5, if_neg (by simp [h1, h2]), if_pos h]
  · simp only [hydrateValueRewrite]
    rw [if_pos h]
  · simp only [rewriteImportValue, importUnchanged]
    rw [if_neg (by simp [h5, hclean1, hclean2]), if_pos h]
  · show isPre "/".data ((stripLeadingSlashes v).data.drop 6) = true
    rw [hhead]
    rfl

/-- Claim C2 counterexample: the transform rewrites
`src="/_astro/app.abc123.js"` to `src="./_astro//app.abc123.js"` with a
double slash, not to the claimed `src="./_astro/app.abc123.js"`.
-/
theorem astro_dir_rewrite_cex :
    transformDoc "/proj/dist" "index.html" "<img src=\"/_astro/app.abc123.js\">"
        = "<img src=\"./_astro//app.abc123.js\">" ∧
    ("<img src=\"./_astro//app.abc123.js\">" : String)
        ≠ "<img src=\"./_astro/app.abc123.js\">" := by
  constructor
  · rfl
  · decide

/-- Witness for the amended C2 theorem at `v = "/_astro/app.abc123.js"`. -/
theorem astro_dir_rewrite_witness :
    strStartsWith (stripLeadingSlashes "/_astro/app.abc123.js") "_astro/"
        = true ∧
    (rewriteAttrValue false "/proj/dist" "/_astro/app.abc123.js" =
        "./_astro/" ++ strDrop (stripLeadingSlashes "/_astro/app.abc123.js") 6 ∧
     hydrateValueRewrite "/_astro/app.abc123.js" =
        "./_astro/" ++ strDrop (stripLeadingSlashes "/_astro/app.abc123.js") 6 ∧
     rewriteImportValue "/_astro/app.abc123.js" =
        "./_astro/" ++ strDrop (stripLeadingSlashes "/_astro/app.abc123.js") 6 ∧
     strStartsWith (strDrop (stripLeadingSlashes "/_astro/app.abc123.js") 6) "/"
        = true) :=
  ⟨by decide, astro_dir_rewrite_double_slash false "/proj/dist"
    "/_astro/app.abc123.js" (by decide)⟩

/-! ### Claim C3 -/

/-- Claim C3 (amended): for an href/src/to attribute value matching `^#/` or
`^/#/` whose cleaned value does not end in a recognized asset extension, the
rewritten value equals the original with at most a single leading `/`
removed (`/#/...` loses exactly its leading slash, `#/...` is byte-identical).
Values with an asset extension instead hit the earlier asset branch, and
hydration markers and dynamic-import specifiers are not exempted (see the
counterexample).
-/
theorem hash_fragment_preserved (hr : Bool) (dist v : String)
    (hstart : strStartsWith v "#/" = true ∨ strStartsWith v "/#/" = true)
    (hasset : isAssetPath (stripLeadingSlashes v) = false) :
    rewriteAttrValue hr dist v =
      (if strStartsWith v "/#/" = true then strDrop v 1 else v) := by
  rcases hstart with hs | hs
  · obtain ⟨t, ht⟩ := isPre_iff.mp hs
    have hv : v.data = '#' :: '/' :: t := by rw [ht]; rfl
    have hne : v ≠ "" := by
      intro he; rw [he] at hv; simp at hv
    have hcl : (stripLeadingSlashes v).data = '#' :: '/' :: t := by
      show v.data.dropWhile (fun c => decide (c = '/')) = _
      rw [hv]
      rfl
    have hrel1 : strStartsWith v "./" = false := by
      show isPre "./".data v.data = false; rw [hv]; rfl
    have hrel2 : strStartsWith v "../" = false := by
      show isPre "../".data v.data = false; rw [hv]; rfl
    have hastro : strStartsWith (stripLeadingSlashes v) "_astro/" = false := by
      show isPre "_astro/".data (stripLeadingSlashes v).data = false
      rw [hcl]; rfl
    have hslashhash : strStartsWith v "/#/" = false := by
      show isPre "/#/".data v.data = false; rw [hv]; rfl
    have hhash : strStartsWith v "#/" = true := hs
    simp only [rewriteAttrValue]
    rw [if_neg hne, if_neg (by simp [hrel1, hrel2]), if_neg (by simp [hastro]),
      if_neg (by simp [hasset]), if_neg (by simp [hslashhash]), if_pos hhash,
      if_neg (by simp [hslashhash])]
  · obtain ⟨t, ht⟩ := isPre_iff.mp hs
    have hv : v.data = '/' :: '#' :: '/' :: t := by rw [ht]; rfl
    have hne : v ≠ "" := by
      intro he; rw [he] at hv; simp at hv
    have hcl : (stripLeadingSlashes v).data = '#' :: '/' :: t := by
      show v.data.dropWhile (fun c => decide (c = '/')) = _
      rw [hv]
      rfl
    have hrel1 : strStartsWith v "./" = false := by
      show isPre "./".data v.data = false; rw [hv]; rfl
    have hrel2 : strStartsWith v "../" = false := by
      show isPre "../".data v.data = false; rw [hv]; rfl
    have hastro : strStartsWith (stripLeadingSlashes v) "_astro/" = false := by
      show isPre "_astro/".data (stripLeadingSlashes v).data = false
      rw [hcl]; rfl
    have hslashhash : strStartsWith v "/#/" = true := hs
    simp only [rewriteAttrValue]
    rw [if_neg hne, if_neg (by simp [hrel1, hrel2]), if_neg (by simp [hastro]),
      if_neg (by simp [hasset]), if_pos hslashhash, if_pos hslashhash]

/-- Claim C3 counterexample: the hash-route value `#/x.js` ends in a recognized
asset extension and is rewritten to `./#/x.js` (the asset branch fires before
the hash branch), not preserved; hydration markers and import specifiers with
hash-route values are also rewritten to `./_astro/`-prefixed values.
-/
theorem hash_fragment_preserved_cex :
    rewriteAttrValue false "/proj/dist" "#/x.js" = "./#/x.js" ∧
    ("./#/x.js" : String) ≠ "#/x.js" ∧
    hydrateValueRewrite "#/about" = "./_astro/#/about" ∧
    rewriteImportValue "#/about" = "./_astro/#/about" := by
  refine ⟨by decide, by decide, by decide, by decide⟩

/-- Witness for the amended C3 theorem at `v = "/#/about"` and `v = "#/about"`. -/
theorem hash_fragment_preserved_witness :
    (strStartsWith "/#/about" "/#/" = true ∧
      isAssetPath (stripLeadingSlashes "/#/about") = false ∧
      rewriteAttrValue false "/proj/dist" "/#/about" =
        (if strStartsWith "/#/about" "/#/" = true then strDrop "/#/about" 1
         else "/#/about")) ∧
    (strStartsWith "#/about" "#/" = true ∧
      rewriteAttrValue true "/proj/dist" "#/about" =
        (if strStartsWith "#/about" "/#/" = true then strDrop "#/about" 1
         else "#/about")) :=
  ⟨⟨by decide, by decide,
    hash_fragment_preserved false "/proj/dist" "/#/about"
      (Or.inr (by decide)) (by decide)⟩,
   ⟨by decide,
    hash_fragment_preserved true "/proj/dist" "#/about"
      (Or.inl (by decide)) (by decide)⟩⟩

/-! ### Claim C4 -/

/-- Claim C4 (amended): in a non-hash-routing document, `href="/"` rewrites to
exactly `file://<outputRoot>/index.html`; any other plain page link rewrites
to `file://<outputRoot>/<cleaned value>` when the cleaned value already ends
in `.html` (so `href="/blog.html"` gets no suffix), and to
`file://<outputRoot>/<cleaned value>/index.html` otherwise.  `index.html` is
appended exactly when the cleaned value does not end in `.html` — in
particular a directory-style target keeps its trailing slash
(`href="/blog/"` yields `.../blog//index.html`) and a target with a
non-`.html` extension such as `/data.json` still gains `/index.html`.
-/
theorem file_locator_rewrite (dist v : String)
    (hne : v ≠ "") (hroot : v ≠ "/")
    (hr1 : strStartsWith v "./" = false) (hr2 : strStartsWith v "../" = false)
    (hastro : strStartsWith (stripLeadingSlashes v) "_astro/" = false)
    (hasset : isAssetPath (stripLeadingSlashes v) = false)
    (hh1 : strStartsWith v "/#/" = false) (hh2 : strStartsWith v "#/" = false) :
    rewriteAttrValue false dist v =
      "file://" ++ dist ++ "/" ++
        (if strEndsWith (stripLeadingSlashes v) ".html" = true
         then stripLeadingSlashes v
         else stripLeadingSlashes v ++ "/index.html") ∧
    rewriteAttrValue false dist "/" = "file://" ++ dist ++ "/index.html" := by
  constructor
  · simp only [rewriteAttrValue]
    rw [if_neg hne, if_neg (by simp [hr1, hr2]), if_neg (by simp [hastro]),
      if_neg (by simp [hasset]), if_neg (by simp [hh1]), if_neg (by simp [hh2]),
      if_neg (by simp), if_neg hroot]
  · rfl

/-- Claim C4 counterexample: `href="/blog/"` rewrites to
`file:///proj/dist/blog//index.html` (double slash), not the claimed
`file:///proj/dist/blog/index.html`; and `/data.json`, which has a file
extension, still gains `/index.html`, contradicting the claimed "appended
only when the target has no file extension".
-/
theorem file_locator_rewrite_cex :
    rewriteAttrValue false "/proj/dist" "/blog/"
        = "file:///proj/dist/blog//index.html" ∧
    ("file:///proj/dist/blog//index.html" : String)
        ≠ "file:///proj/dist/blog/index.html" ∧
    rewriteAttrValue false "/proj/dist" "/data.json"
        = "file:///proj/dist/data.json/index.html" := by
  refine ⟨by decide, by decide, by decide⟩

/-- Witness for the amended C4 theorem at `v = "/blog.html"`. -/
theorem file_locator_rewrite_witness :
    ("/blog.html" : String) ≠ "" ∧
    (rewriteAttrValue false "/proj/dist" "/blog.html" =
      "file://" ++ "/proj/dist" ++ "/" ++
        (if strEndsWith (stripLeadingSlashes "/blog.html") ".html" = true
         then stripLeadingSlashes "/blog.html"
         else stripLeadingSlashes "/blog.html" ++ "/index.html") ∧
     rewriteAttrValue false "/proj/dist" "/" =
      "file://" ++ "/proj/dist" ++ "/index.html") :=
  ⟨by decide,
   file_locator_rewrite "/proj/dist" "/blog.html" (by decide) (by decide)
     (by decide) (by decide) (by decide) (by decide) (by decide) (by decide)⟩

/-! ### Claim C5 -/

/-- Claim C5: a document whose content contains one of the recognized
hash-router signatures, or whose path contains the token `router`, has
`isHashRoutingComponent = true`; and in such a document every plain page
link — nonempty, not already-relative, not `_astro/`-prefixed, not an asset
extension, not a hash fragment — is rewritten to `#/` followed by the
cleaned value with trailing slashes stripped, instead of a `file://`
locator.
-/
theorem hash_routing_detection :
    (∀ content fp : String,
      (strIncludes fp "router" = true ∨
        ∃ p ∈ hashRoutingPatterns, strIncludes content p = true) →
      isHashRoutingComponent content fp = true) ∧
    (∀ dist v : String, v ≠ "" →
      strStartsWith v "./" = false → strStartsWith v "../" = false →
      strStartsWith (stripLeadingSlashes v) "_astro/" = false →
      isAssetPath (stripLeadingSlashes v) = false →
      strStartsWith v "/#/" = false → strStartsWith v "#/" = false →
      rewriteAttrValue true dist v =
        "#/" ++ stripTrailingSlashes (stripLeadingSlashes v)) := by
  constructor
  · intro content fp h
    rw [isHashRoutingComponent]
    rcases h with h | ⟨p, hp, hc⟩
    · simp [h]
    · simp only [Bool.or_eq_true, List.any_eq_true]
      exact Or.inr ⟨p, hp, hc⟩
  · intro dist v hne hr1 hr2 hastro hasset hh1 hh2
    simp only [rewriteAttrValue]
    rw [if_neg hne, if_neg (by simp [hr1, hr2]), if_neg (by simp [hastro]),
      if_neg (by simp [hasset]), if_neg (by simp [hh1]), if_neg (by simp [hh2])]
    simp

/-- Witness for C5: a document containing `createHashRouter` is detected,
a path containing `router` is detected, and `href="/about/"` in a
hash-routing document becomes `href="#/about"`. -/
theorem hash_routing_detection_witness :
    isHashRoutingComponent "import \x7b createHashRouter \x7d from x" "index.html"
        = true ∧
    isHashRoutingComponent "<a href=x>" "src/router.jsx" = true ∧
    rewriteAttrValue true "/proj/dist" "/about/" =
      "#/" ++ stripTrailingSlashes (stripLeadingSlashes "/about/") :=
  ⟨hash_routing_detection.1 "import \x7b createHashRouter \x7d from x"
      "index.html" (Or.inr ⟨"createHashRouter", by decide, by decide⟩),
   hash_routing_detection.1 "<a href=x>" "src/router.jsx" (Or.inl (by decide)),
   hash_routing_detection.2 "/proj/dist" "/about/" (by decide) (by decide)
     (by decide) (by decide) (by decide) (by decide) (by decide)⟩

/-! ### Claim C6 -/

/-- Claim C6 (amended): attribute links and dynamic-import specifiers whose
value already starts with `./` or `../` are left byte-identical by the
transform; hydration markers, however, are handled by a separate earlier
pass that has no already-relative exemption and rewrites an
already-relative value `v` to `./_astro/<v>`.
-/
theorem already_relative_references (hr : Bool) (dist v : String)
    (orig : List Char)
    (h : strStartsWith v "./" = true ∨ strStartsWith v "../" = true) :
    rewriteAttrValue hr dist v = v ∧
    importUnchanged v = true ∧
    mainReplacement hr dist (MainMatch.imp orig v) = orig ∧
    hydrateValueRewrite v = "./_astro/" ++ v := by
  have hiu : importUnchanged v = true := by
    have hsv := strip_rel_self h
    rw [importUnchanged, hsv]
    rcases h with h | h <;> simp [h]
  exact ⟨attr_rel_unchanged h, hiu, import_unchanged_repl hiu,
    hydrate_rel_rewritten h⟩

/-- Claim C6 counterexample: the hydration marker `hydrate="./a.js"` is not
left byte-identical — the transform rewrites the document
`<div hydrate="./a.js">` to `<div hydrate="./_astro/./a.js">`.
-/
theorem already_relative_references_cex :
    transformDoc "/proj/dist" "index.html" "<div hydrate=\"./a.js\">"
        = "<div hydrate=\"./_astro/./a.js\">" ∧
    ("<div hydrate=\"./_astro/./a.js\">" : String)
        ≠ "<div hydrate=\"./a.js\">" := by
  refine ⟨rfl, by decide⟩

/-- Witness for the amended C6 theorem at `v = "./already/relative"`. -/
theorem already_relative_references_witness :
    strStartsWith "./already/relative" "./" = true ∧
    (rewriteAttrValue false "/proj/dist" "./already/relative"
        = "./already/relative" ∧
      importUnchanged "./already/relative" = true ∧
      mainReplacement false "/proj/dist"
          (MainMatch.imp "import(\"./already/relative\")".data
            "./already/relative")
        = "import(\"./already/relative\")".data ∧
      hydrateValueRewrite "./already/relative"
        = "./_astro/" ++ "./already/relative") :=
  ⟨by decide,
   already_relative_references false "/proj/dist" "./already/relative"
     "import(\"./already/relative\")".data (Or.inl (by decide))⟩

/-! ### Claim C1 -/

/-- Claim C1 (amended): the transform is not idempotent on whole documents (a
rewritten `file://` page link is rewritten again by a second pass, and
hydrate markers are re-prefixed — see the counterexample); what does hold is
that the individual references the classifier exempts are fixed points: an
attribute value that is already relative (`./`, `../`) or a hash route
(`#/...` without an asset extension) is left unchanged, and hence a second
value-level application changes nothing, and an import specifier whose
cleaned value is already relative keeps its matched text unchanged.
-/
theorem rewrite_exempt_fixed_points (hr : Bool) (dist v : String)
    (orig : List Char) :
    ((strStartsWith v "./" = true ∨ strStartsWith v "../" = true) →
      rewriteAttrValue hr dist v = v ∧
      rewriteAttrValue hr dist (rewriteAttrValue hr dist v)
        = rewriteAttrValue hr dist v) ∧
    ((strStartsWith v "#/" = true ∧
        isAssetPath (stripLeadingSlashes v) = false) →
      rewriteAttrValue hr dist v = v ∧
      rewriteAttrValue hr dist (rewriteAttrValue hr dist v)
        = rewriteAttrValue hr dist v) ∧
    (importUnchanged v = true →
      mainReplacement hr dist (MainMatch.imp orig v) = orig) := by
  refine ⟨?_, ?_, fun hiu => import_unchanged_repl hiu⟩
  · intro h
    have h1 := @attr_rel_unchanged hr dist v h
    exact ⟨h1, by rw [h1, h1]⟩
  · rintro ⟨hs, hasset⟩
    have h1 := @attr_hash_unchanged hr dist v hs hasset
    exact ⟨h1, by rw [h1, h1]⟩

/-- Claim C1 counterexample: the transform is not idempotent.  One pass over
`<a href="/about">` yields a `file://` locator; a second pass wraps that
locator in another `file://` prefix, so `rewrite(rewrite(D)) ≠ rewrite(D)`.
-/
theorem rewrite_not_idempotent_cex :
    transformDoc "/proj/dist" "index.html" "<a href=\"/about\">"
        = "<a href=\"file:///proj/dist/about/index.html\">" ∧
    transformDoc "/proj/dist" "index.html"
        "<a href=\"file:///proj/dist/about/index.html\">"
        = "<a href=\"file:///proj/dist/file:///proj/dist/about/index.html\">" ∧
    transformDoc "/proj/dist" "index.html"
        (transformDoc "/proj/dist" "index.html" "<a href=\"/about\">")
        ≠ transformDoc "/proj/dist" "index.html" "<a href=\"/about\">" := by
  refine ⟨rfl, rfl, by decide⟩

/-- Witness for the amended C1 theorem at `v = "#/about"`. -/
theorem rewrite_exempt_fixed_points_witness :
    (strStartsWith "#/about" "#/" = true ∧
      isAssetPath (stripLeadingSlashes "#/about") = false) ∧
    (rewriteAttrValue false "/proj/dist" "#/about" = "#/about" ∧
      rewriteAttrValue false "/proj/dist"
          (rewriteAttrValue false "/proj/dist" "#/about")
        = rewriteAttrValue false "/proj/dist" "#/about") :=
  ⟨⟨by decide, by decide⟩,
   (rewrite_exempt_fixed_points false "/proj/dist" "#/about" []).2.1
     ⟨by decide, by decide⟩⟩

/-! ### Prefix facts about the literal rewrite outputs -/

theorem sw_astro_dot (s : String) : strStartsWith ("./_astro/" ++ s) "./" = true := rfl

theorem sw_dot_dot (s : String) : strStartsWith ("./" ++ s) "./" = true := rfl

theorem sw_astro_full (s : String) :
    strStartsWith ("./_astro/" ++ s) "./_astro/" = true := rfl

theorem nf_astro (s : String) :
    strStartsWith ("./_astro/" ++ s) "file://" = false := rfl

theorem nf_dot (s : String) : strStartsWith ("./" ++ s) "file://" = false := rfl

theorem nh_astro (s : String) : strStartsWith ("./_astro/" ++ s) "#" = false := rfl

theorem nh_dot (s : String) : strStartsWith ("./" ++ s) "#" = false := rfl

theorem ne_of_head {s t : String} {a b : Char}
    (ha : s.data.head? = some a) (hb : t.data.head? = some b) (hab : a ≠ b) :
    s ≠ t := by
  intro he
  rw [he, hb] at ha
  injection ha with ha'
  exact hab ha'.symm

/-! ### Claim C8 -/

/-- Claim C8 (amended): for every reference whose cleaned value ends in a
recognized asset extension, the rewritten value never starts with `file://`
and never with `#`; whenever the reference is not exempted as
already-relative, the rewritten value starts with `./`.  The exempted
references (attribute values starting with `./` or `../`, import specifiers
whose cleaned value starts with `./` or `../`) are left unchanged and may
keep a `../` (or slash-prefixed) form, so "always starts with `./`" fails
only for them.  Hydrate values always start with `./`.
-/
theorem asset_relativity (hr : Bool) (dist v : String)
    (h : isAssetPath (stripLeadingSlashes v) = true) :
    (strStartsWith v "./" = false → strStartsWith v "../" = false →
      strStartsWith (rewriteAttrValue hr dist v) "./" = true) ∧
    strStartsWith (rewriteAttrValue hr dist v) "file://" = false ∧
    strStartsWith (rewriteAttrValue hr dist v) "#" = false ∧
    (importUnchanged v = false →
      strStartsWith (rewriteImportValue v) "./" = true) ∧
    strStartsWith (rewriteImportValue v) "file://" = false ∧
    strStartsWith (rewriteImportValue v) "#" = false ∧
    strStartsWith (hydrateValueRewrite v) "./" = true := by
  have hne : v ≠ "" := by
    intro he; rw [he] at h; exact absurd h (by decide)
  have hattr : (strStartsWith (rewriteAttrValue hr dist v) "./" = true ∨
      (strStartsWith v "./" = true ∨ strStartsWith v "../" = true)) ∧
      strStartsWith (rewriteAttrValue hr dist v) "file://" = false ∧
      strStartsWith (rewriteAttrValue hr dist v) "#" = false := by
    by_cases hr1 : strStartsWith v "./" = true
    · obtain ⟨t, ht⟩ := isPre_iff.mp hr1
      have hv : v.data = '.' :: '/' :: t := by rw [ht]; rfl
      rw [attr_rel_unchanged (Or.inl hr1)]
      refine ⟨Or.inr (Or.inl hr1), ?_, ?_⟩
      · show isPre "file://".data v.data = false; rw [hv]; rfl
      · show isPre "#".data v.data = false; rw [hv]; rfl
    · by_cases hr2 : strStartsWith v "../" = true
      · obtain ⟨t, ht⟩ := isPre_iff.mp hr2
        have hv : v.data = '.' :: '.' :: '/' :: t := by rw [ht]; rfl
        rw [attr_rel_unchanged (Or.inr hr2)]
        refine ⟨Or.inr (Or.inr hr2), ?_, ?_⟩
        · show isPre "file://".data v.data = false; rw [hv]; rfl
        · show isPre "#".data v.data = false; rw [hv]; rfl
      · have hb1 : strStartsWith v "./" = false := by simpa using hr1
        have hb2 : strStartsWith v "../" = false := by simpa using hr2
        by_cases hast : strStartsWith (stripLeadingSlashes v) "_astro/" = true
        · have hEq : rewriteAttrValue hr dist v =
              "./_astro/" ++ strDrop (stripLeadingSlashes v) 6 := by
            simp only [rewriteAttrValue]
            rw [if_neg hne, if_neg (by simp [hb1, hb2]), if_pos hast]
          rw [hEq]
          exact ⟨Or.inl (sw_astro_dot _), nf_astro _, nh_astro _⟩
        · have hEq : rewriteAttrValue hr dist v =
              "./" ++ stripLeadingSlashes v := by
            simp only [rewriteAttrValue]
            rw [if_neg hne, if_neg (by simp [hb1, hb2]),
              if_neg (by simpa using hast), if_pos h]
          rw [hEq]
          exact ⟨Or.inl (sw_dot_dot _), nf_dot _, nh_dot _⟩
  have himp : (importUnchanged v = false →
        strStartsWith (rewriteImportValue v) "./" = true) ∧
      strStartsWith (rewriteImportValue v) "file://" = false ∧
      strStartsWith (rewriteImportValue v) "#" = false := by
    by_cases hiu : importUnchanged v = true
    · have hIv : rewriteImportValue v = v := by
        simp [rewriteImportValue, hiu]
      have hstruct : strStartsWith (stripLeadingSlashes v) "./" = true ∨
          strStartsWith (stripLeadingSlashes v) "../" = true := by
        rw [importUnchanged] at hiu
        simpa [hne] using hiu
      have hcd : ∃ r, (stripLeadingSlashes v).data = '.' :: r := by
        rcases hstruct with hs | hs <;> obtain ⟨t, ht⟩ := isPre_iff.mp hs
        · exact ⟨'/' :: t, by rw [ht]; rfl⟩
        · exact ⟨'.' :: '/' :: t, by rw [ht]; rfl⟩
      obtain ⟨r, hcd⟩ := hcd
      obtain ⟨s, hs, hall⟩ := stripLeading_spec v
      rw [hcd] at hs
      refine ⟨fun hf => (Bool.false_ne_true (hf.symm.trans hiu)).elim, ?_, ?_⟩
      · rw [hIv]
        show isPre "file://".data v.data = false
        rw [hs]
        cases s with
        | nil => exact isPre_head_ne (by decide)
        | cons a s' =>
          rw [hall a (by simp)]
          exact isPre_head_ne (by decide)
      · rw [hIv]
        show isPre "#".data v.data = false
        rw [hs]
        cases s with
        | nil => exact isPre_head_ne (by decide)
        | cons a s' =>
          rw [hall a (by simp)]
          exact isPre_head_ne (by decide)
    · have hIv : rewriteImportValue v =
          (if strStartsWith (stripLeadingSlashes v) "_astro/" = true
           then "./_astro/" ++ strDrop (stripLeadingSlashes v) 6
           else "./_astro/" ++ stripLeadingSlashes v) := by
        simp only [rewriteImportValue]
        rw [if_neg hiu]
      rw [hIv]
      by_cases hia : strStartsWith (stripLeadingSlashes v) "_astro/" = true
      · rw [if_pos hia]
        exact ⟨fun _ => sw_astro_dot _, nf_astro _, nh_astro _⟩
      · rw [if_neg hia]
        exact ⟨fun _ => sw_astro_dot _, nf_astro _, nh_astro _⟩
  have hhyd : strStartsWith (hydrateValueRewrite v) "./" = true := by
    simp only [hydrateValueRewrite]
    by_cases hia : strStartsWith (stripLeadingSlashes v) "_astro/" = true
    · rw [if_pos hia]; exact sw_astro_dot _
    · rw [if_neg hia]; exact sw_astro_dot _
  refine ⟨?_, hattr.2.1, hattr.2.2, himp.1, himp.2.1, himp.2.2, hhyd⟩
  intro h1 h2
  rcases hattr.1 with hgood | hbad
  · exact hgood
  · rcases hbad with hb | hb
    · rw [h1] at hb; cases hb
    · rw [h2] at hb; cases hb

/-- Claim C8 counterexample: `src="../app.js"` has a cleaned value ending in a
recognized asset extension, yet its rewritten value is the unchanged
`../app.js`, which does not start with `./`.
-/
theorem asset_relativity_cex :
    isAssetPath (stripLeadingSlashes "../app.js") = true ∧
    rewriteAttrValue false "/proj/dist" "../app.js" = "../app.js" ∧
    strStartsWith "../app.js" "./" = false := by
  refine ⟨by decide, by decide, by decide⟩

/-- Witness for the amended C8 theorem at `v = "/foo.css"`, `hr = true`. -/
theorem asset_relativity_witness :
    isAssetPath (stripLeadingSlashes "/foo.css") = true ∧
    ((strStartsWith "/foo.css" "./" = false →
        strStartsWith "/foo.css" "../" = false →
        strStartsWith (rewriteAttrValue true "/proj/dist" "/foo.css") "./"
          = true) ∧
      strStartsWith (rewriteAttrValue true "/proj/dist" "/foo.css") "file://"
        = false ∧
      strStartsWith (rewriteAttrValue true "/proj/dist" "/foo.css") "#"
        = false ∧
      (importUnchanged "/foo.css" = false →
        strStartsWith (rewriteImportValue "/foo.css") "./" = true) ∧
      strStartsWith (rewriteImportValue "/foo.css") "file://" = false ∧
      strStartsWith (rewriteImportValue "/foo.css") "#" = false ∧
      strStartsWith (hydrateValueRewrite "/foo.css") "./" = true) :=
  ⟨by decide, asset_relativity true "/proj/dist" "/foo.css" (by decide)⟩

/-! ### Claim C9 -/

/-- Claim C9 (amended): every dynamic-import specifier that is nonempty and
whose cleaned value (leading slashes stripped) does not start with `./` or
`../` is rewritten to a value starting with `./_astro/`; when the cleaned
value does not begin with `_astro/` the new value is exactly
`./_astro/<cleaned value>` (so `import("/foo/bar.js")` becomes
`import("./_astro/foo/bar.js")`); a dynamic-import specifier is never
rewritten to a `file://` locator or to a hash route.
-/
theorem import_astro_rewrite (v : String) (hne : v ≠ "")
    (h1 : strStartsWith (stripLeadingSlashes v) "./" = false)
    (h2 : strStartsWith (stripLeadingSlashes v) "../" = false) :
    strStartsWith (rewriteImportValue v) "./_astro/" = true ∧
    strStartsWith (rewriteImportValue v) "file://" = false ∧
    strStartsWith (rewriteImportValue v) "#" = false ∧
    (strStartsWith (stripLeadingSlashes v) "_astro/" = false →
      rewriteImportValue v = "./_astro/" ++ stripLeadingSlashes v) := by
  have hiu : ¬(importUnchanged v = true) := by
    rw [importUnchanged]
    simp [hne, h1, h2]
  have hIv : rewriteImportValue v =
      (if strStartsWith (stripLeadingSlashes v) "_astro/" = true
       then "./_astro/" ++ strDrop (stripLeadingSlashes v) 6
       else "./_astro/" ++ stripLeadingSlashes v) := by
    simp only [rewriteImportValue]
    rw [if_neg hiu]
  rw [hIv]
  by_cases hia : strStartsWith (stripLeadingSlashes v) "_astro/" = true
  · rw [if_pos hia]
    exact ⟨sw_astro_full _, nf_astro _, nh_astro _,
      fun hf => (Bool.false_ne_true (hf.symm.trans hia)).elim⟩
  · rw [if_neg hia]
    exact ⟨sw_astro_full _, nf_astro _, nh_astro _, fun _ => rfl⟩

/-- Claim C9 counterexample: the import specifier `/./x.js` does not start with
`./` or `../`, yet it is left unchanged (its cleaned value `./x.js` is
already relative), so it is not rewritten to start with `./_astro/`.
-/
theorem import_astro_rewrite_cex :
    rewriteImportValue "/./x.js" = "/./x.js" ∧
    strStartsWith "/./x.js" "./" = false ∧
    strStartsWith "/./x.js" "../" = false ∧
    strStartsWith "/./x.js" "./_astro/" = false := by
  refine ⟨by decide, by decide, by decide, by decide⟩

/-- Witness for the amended C9 theorem at `v = "/foo/bar.js"`. -/
theorem import_astro_rewrite_witness :
    ("/foo/bar.js" : String) ≠ "" ∧
    (strStartsWith (rewriteImportValue "/foo/bar.js") "./_astro/" = true ∧
      strStartsWith (rewriteImportValue "/foo/bar.js") "file://" = false ∧
      strStartsWith (rewriteImportValue "/foo/bar.js") "#" = false ∧
      (strStartsWith (stripLeadingSlashes "/foo/bar.js") "_astro/" = false →
        rewriteImportValue "/foo/bar.js"
          = "./_astro/" ++ stripLeadingSlashes "/foo/bar.js")) :=
  ⟨by decide,
   import_astro_rewrite "/foo/bar.js" (by decide) (by decide) (by decide)⟩

/-! ### Claim C10 -/

/-- Claim C10 (amended): attribute values that are scheme-qualified absolute
URLs (beginning `http://` or `https://`) are not exempt from rewriting: a
value ending in a recognized asset extension becomes `./<value>`; otherwise
in a non-hash-routing document it becomes
`file://<outputRoot>/<value>/index.html` when the value does not end in
`.html` and `file://<outputRoot>/<value>` when it does; in a hash-routing
document it becomes `#/<value with trailing slashes stripped>`; it is never
left unchanged.
-/
theorem scheme_url_not_exempt (hr : Bool) (dist v : String)
    (h : strStartsWith v "http://" = true ∨
      strStartsWith v "https://" = true) :
    (isAssetPath v = true → rewriteAttrValue hr dist v = "./" ++ v) ∧
    (isAssetPath v = false → hr = false →
      rewriteAttrValue hr dist v =
        "file://" ++ dist ++ "/" ++
          (if strEndsWith v ".html" = true then v else v ++ "/index.html")) ∧
    (isAssetPath v = false → hr = true →
      rewriteAttrValue hr dist v = "#/" ++ stripTrailingSlashes v) ∧
    rewriteAttrValue hr dist v ≠ v := by
  have hv : ∃ r, v.data = 'h' :: r := by
    rcases h with hs | hs <;> obtain ⟨t, ht⟩ := isPre_iff.mp hs
    · exact ⟨'t' :: 't' :: 'p' :: ':' :: '/' :: '/' :: t, by rw [ht]; rfl⟩
    · exact ⟨'t' :: 't' :: 'p' :: 's' :: ':' :: '/' :: '/' :: t,
        by rw [ht]; rfl⟩
  obtain ⟨r, hv⟩ := hv
  have hne : v ≠ "" := by intro he; rw [he] at hv; simp at hv
  have hnslash : v ≠ "/" := by
    intro he; rw [he] at hv
    simp at hv
  have hcl : stripLeadingSlashes v = v := by
    apply String.ext
    show v.data.dropWhile (fun c => decide (c = '/')) = v.data
    rw [hv]; rfl
  have hb1 : strStartsWith v "./" = false := by
    show isPre "./".data v.data = false; rw [hv]; rfl
  have hb2 : strStartsWith v "../" = false := by
    show isPre "../".data v.data = false; rw [hv]; rfl
  have hastro : strStartsWith v "_astro/" = false := by
    show isPre "_astro/".data v.data = false; rw [hv]; rfl
  have hh1 : strStartsWith v "/#/" = false := by
    show isPre "/#/".data v.data = false; rw [hv]; rfl
  have hh2 : strStartsWith v "#/" = false := by
    show isPre "#/".data v.data = false; rw [hv]; rfl
  have hhead : v.data.head? = some 'h' := by rw [hv]; rfl
  by_cases hA : isAssetPath v = true
  · have hEq : rewriteAttrValue hr dist v = "./" ++ v := by
      simp only [rewriteAttrValue]
      rw [if_neg hne, if_neg (by simp [hb1, hb2]), hcl,
        if_neg (by simp [hastro]), if_pos hA]
    have hff : isAssetPath v = false → False :=
      fun hf => Bool.false_ne_true (hf.symm.trans hA)
    refine ⟨fun _ => hEq, fun hf _ => (hff hf).elim,
      fun hf _ => (hff hf).elim, ?_⟩
    rw [hEq]
    exact ne_of_head rfl hhead (by decide)
  · have hAf : isAssetPath v = false := by simpa using hA
    have htf : isAssetPath v = true → False :=
      fun hf => Bool.false_ne_true (hAf.symm.trans hf)
    by_cases hHR : hr = true
    · subst hHR
      have hEq : rewriteAttrValue true dist v = "#/" ++ stripTrailingSlashes v := by
        simp only [rewriteAttrValue]
        rw [if_neg hne, if_neg (by simp [hb1, hb2]), hcl,
          if_neg (by simp [hastro]), if_neg (by simp [hAf]),
          if_neg (by simp [hh1]), if_neg (by simp [hh2])]
        simp
      refine ⟨fun hf => (htf hf).elim,
        fun _ hf => (Bool.false_ne_true hf.symm).elim, fun _ _ => hEq, ?_⟩
      rw [hEq]
      exact ne_of_head rfl hhead (by decide)
    · have hHRf : hr = false := by simpa using hHR
      subst hHRf
      have hEq : rewriteAttrValue false dist v =
          "file://" ++ dist ++ "/" ++
            (if strEndsWith v ".html" = true then v
             else v ++ "/index.html") := by
        simp only [rewriteAttrValue]
        rw [if_neg hne, if_neg (by simp [hb1, hb2]), hcl,
          if_neg (by simp [hastro]), if_neg (by simp [hAf]),
          if_neg (by simp [hh1]), if_neg (by simp [hh2]),
          if_neg (by simp), if_neg hnslash]
      refine ⟨fun hf => (htf hf).elim,
        fun _ _ => hEq, fun _ hf => (Bool.false_ne_true hf).elim, ?_⟩
      rw [hEq]
      exact ne_of_head rfl hhead (by decide)

/-- Claim C10 counterexample: the non-asset scheme URL `http://x/page.html` ends
in `.html`, so the code emits `file:///proj/dist/http://x/page.html` with no
`/index.html` appended — not the claimed `file://<outputRoot>/<value>/index.html`.
-/
theorem scheme_url_not_exempt_cex :
    rewriteAttrValue false "/proj/dist" "http://x/page.html"
        = "file:///proj/dist/http://x/page.html" ∧
    ("file:///proj/dist/http://x/page.html" : String)
        ≠ "file:///proj/dist/http://x/page.html/index.html" := by
  refine ⟨by decide, by decide⟩

/-- Witness for the amended C10 theorem at `v = "https://docs.astro.build/"`,
`hr = true`. -/
theorem scheme_url_not_exempt_witness :
    strStartsWith "https://docs.astro.build/" "https://" = true ∧
    ((isAssetPath "https://docs.astro.build/" = true →
        rewriteAttrValue true "/proj/dist" "https://docs.astro.build/"
          = "./" ++ "https://docs.astro.build/") ∧
      (isAssetPath "https://docs.astro.build/" = false → (true : Bool) = false →
        rewriteAttrValue true "/proj/dist" "https://docs.astro.build/"
          = "file://" ++ "/proj/dist" ++ "/" ++
              (if strEndsWith "https://docs.astro.build/" ".html" = true
               then "https://docs.astro.build/"
               else "https://docs.astro.build/" ++ "/index.html")) ∧
      (isAssetPath "https://docs.astro.build/" = false → (true : Bool) = true →
        rewriteAttrValue true "/proj/dist" "https://docs.astro.build/"
          = "#/" ++ stripTrailingSlashes "https://docs.astro.build/") ∧
      rewriteAttrValue true "/proj/dist" "https://docs.astro.build/"
        ≠ "https://docs.astro.build/") :=
  ⟨by decide,
   scheme_url_not_exempt true "/proj/dist" "https://docs.astro.build/"
     (Or.inr (by decide))⟩

/-! ### Claim C7: the route fan-out of `astro:build:done`

The hook (index.astro lines 309-425) runs `Promise.all` over
`routes.map(async route => ...)`; each task reads its own document, runs
`transformDoc` and writes the result back, and on a read/write failure logs
`Error processing file <path>` and rethrows.  Two embeddings of this
fan-out are given: `runSeq`, the denotational effect when every task runs
to completion (JavaScript never cancels the sibling tasks, so every
successful task's write lands and every failing task's path is logged);
and an event-step model `stepEvent`/`runEvents` exposing the interleaving
of task steps, used to exhibit the fail-fast rejection of `Promise.all`.
-/

/-- In-memory file system: association list from normalized paths to
document contents. -/
abbrev FS := List (String × String)

/-- Model of `fs.readFile` on the model file system. -/
def fsLookup (fs : FS) (p : String) : Option String :=
  match fs with
  | [] => none
  | (q, c) :: t => if q = p then some c else fsLookup t p

/-- Model of `fs.writeFile` on the model file system (the hook only ever writes a
path it has just read, so updating an existing entry suffices). -/
def fsUpdate (fs : FS) (p c : String) : FS :=
  match fs with
  | [] => []
  | (q, c0) :: t => if q = p then (q, c) :: t else (q, c0) :: fsUpdate t p c

/-- The combined effect of the route fan-out when every task runs to
completion (no task is cancelled when a sibling fails): routes without a
`distURL` are skipped; a route whose document is missing contributes its
logged path to the error list and touches nothing; a readable document is
transformed and written back.  The hook's `Promise.all` rejection carries
the first entry of the error list. -/
def runSeq (dist : String) : FS → List (Option String) → FS × List String
  | fs, [] => (fs, [])
  | fs, none :: rs => runSeq dist fs rs
  | fs, some p :: rs =>
    match fsLookup fs p with
    | none =>
      let r := runSeq dist fs rs
      (r.1, p :: r.2)
    | some c => runSeq dist (fsUpdate fs p (transformDoc dist p c)) rs

/-- Progress state of one route task. -/
inductive TaskPhase where
  /-- created, read not yet completed -/
  | idle
  /-- read completed with the given content -/
  | loaded (content : String)
  /-- write completed -/
  | done
  /-- read rejected (missing document) -/
  | failed
deriving DecidableEq

/-- Task list for a route set: routes without a `distURL` settle
immediately, the rest await their read. -/
def initTasks (routes : List (Option String)) : List (Option String × TaskPhase) :=
  routes.map (fun r =>
    (r, match r with
        | none => TaskPhase.done
        | some _ => TaskPhase.idle))

/-- One scheduler event: task `i` completes its next pending asynchronous
step (its read, or its write).  The read fails iff the document is absent. -/
def stepEvent (dist : String) (st : FS × List (Option String × TaskPhase))
    (i : Nat) : FS × List (Option String × TaskPhase) :=
  match st.2.get? i with
  | some (some p, TaskPhase.idle) =>
    match fsLookup st.1 p with
    | some c => (st.1, st.2.set i (some p, TaskPhase.loaded c))
    | none => (st.1, st.2.set i (some p, TaskPhase.failed))
  | some (some p, TaskPhase.loaded c) =>
    (fsUpdate st.1 p (transformDoc dist p c),
     st.2.set i (some p, TaskPhase.done))
  | _ => st

/-- Run a schedule (a list of task-step events) from a start state. -/
def runEvents (dist : String) (sched : List Nat)
    (st : FS × List (Option String × TaskPhase)) :
    FS × List (Option String × TaskPhase) :=
  sched.foldl (stepEvent dist) st

theorem fsLookup_update_other {fs : FS} {p q c : String} (hq : q ≠ p) :
    fsLookup (fsUpdate fs p c) q = fsLookup fs q := by
  induction fs with
  | nil => rfl
  | cons e t ih =>
    obtain ⟨a, b⟩ := e
    by_cases hap : a = p
    · subst hap
      simp only [fsUpdate, if_pos rfl, fsLookup]
      rw [if_neg (by intro he; exact hq he.symm),
        if_neg (by intro he; exact hq he.symm)]
    · simp only [fsUpdate, if_neg hap, fsLookup]
      by_cases haq : a = q
      · rw [if_pos haq, if_pos haq]
      · rw [if_neg haq, if_neg haq, ih]

theorem fsLookup_update_self {fs : FS} {p c c0 : String}
    (h : fsLookup fs p = some c0) :
    fsLookup (fsUpdate fs p c) p = some c := by
  induction fs with
  | nil => simp [fsLookup] at h
  | cons e t ih =>
    obtain ⟨a, b⟩ := e
    by_cases hap : a = p
    · subst hap
      simp [fsUpdate, fsLookup]
    · simp only [fsLookup, if_neg hap] at h
      simp only [fsUpdate, if_neg hap, fsLookup, if_neg hap]
      exact ih h

theorem fsUpdate_absent {fs : FS} {p c : String}
    (h : fsLookup fs p = none) : fsUpdate fs p c = fs := by
  induction fs with
  | nil => rfl
  | cons e t ih =>
    obtain ⟨a, b⟩ := e
    by_cases hap : a = p
    · subst hap; simp [fsLookup] at h
    · simp only [fsLookup, if_neg hap] at h
      simp only [fsUpdate, if_neg hap]
      rw [ih h]

theorem fsLookup_update_isNone (fs : FS) (p c q : String) :
    (fsLookup (fsUpdate fs p c) q).isNone = (fsLookup fs q).isNone := by
  by_cases hq : q = p
  · subst hq
    cases h : fsLookup fs q with
    | none => rw [fsUpdate_absent h, h]
    | some c0 => simp [fsLookup_update_self h, h]
  · rw [fsLookup_update_other hq]

theorem filter_ext {α : Type} (p q : α → Bool) (l : List α)
    (h : ∀ a, p a = q a) : l.filter p = l.filter q := by
  induction l with
  | nil => rfl
  | cons a t ih =>
    simp only [List.filter, h a, ih]

/-- Routes not mentioning `p` never change what `fsLookup` returns at `p`. -/
theorem runSeq_untouched (dist : String) (fs : FS)
    (rs : List (Option String)) (p : String)
    (h : p ∉ rs.filterMap id) :
    fsLookup (runSeq dist fs rs).1 p = fsLookup fs p := by
  induction rs generalizing fs with
  | nil => rfl
  | cons r rs ih =>
    cases r with
    | none =>
      simp only [List.filterMap_cons] at h
      exact ih fs (by simpa using h)
    | some q =>
      have hqp : p ≠ q := by
        intro he
        subst he
        simp [List.filterMap_cons] at h
      have hmem : p ∉ rs.filterMap id := by
        simp only [List.filterMap_cons] at h
        intro hm
        exact h (by simpa using Or.inr hm)
      simp only [runSeq]
      cases hl : fsLookup fs q with
      | none => exact ih fs hmem
      | some c =>
        rw [ih _ hmem, fsLookup_update_other hqp]

/-- Claim C7 (amended): because the sibling tasks of the fan-out are
independent and never cancelled, a read failure on one document does not
prevent any other document from being read, transformed and written, and
every failing path is logged: the error list contains exactly the routes
whose document is absent, and each present document ends up rewritten with
`transformDoc` no matter how many other routes fail.  (What the claim gets
wrong is the aggregate behaviour: `Promise.all` rejects with the first
failure alone, possibly before other documents have been attempted — see
the counterexample.)
-/
theorem route_failure_independence (dist : String) (fs : FS)
    (routes : List (Option String)) :
    (runSeq dist fs routes).2 =
      (routes.filterMap id).filter (fun p => (fsLookup fs p).isNone) ∧
    ((routes.filterMap id).Nodup →
      ∀ p c, (some p) ∈ routes → fsLookup fs p = some c →
        fsLookup (runSeq dist fs routes).1 p
          = some (transformDoc dist p c)) := by
  induction routes generalizing fs with
  | nil =>
    exact ⟨rfl, fun _ p c hp => absurd hp (by simp)⟩
  | cons r rs ih =>
    cases r with
    | none =>
      refine ⟨?_, ?_⟩
      · simpa [runSeq, List.filterMap_cons] using (ih fs).1
      · intro hnd p c hp hl
        have hp' : some p ∈ rs := by
          rcases List.mem_cons.mp hp with he | hm
          · cases he
          · exact hm
        have hnd' : (rs.filterMap id).Nodup := by
          simpa [List.filterMap_cons] using hnd
        exact (ih fs).2 hnd' p c hp' hl
    | some q =>
      refine ⟨?_, ?_⟩
      · simp only [runSeq]
        cases hl : fsLookup fs q with
        | none =>
          have : (fsLookup fs q).isNone = true := by rw [hl]; rfl
          simp only [List.filterMap_cons, List.filter]
          rw [(ih fs).1]
          simp [this]
        | some c =>
          have hnone : (fsLookup fs q).isNone = false := by rw [hl]; rfl
          simp only [List.filterMap_cons, List.filter]
          rw [(ih (fsUpdate fs q (transformDoc dist q c))).1]
          rw [filter_ext _ _ _ (fun a => fsLookup_update_isNone fs q _ a)]
          simp [hnone]
      · intro hnd p c hp hl
        have hnd' : (rs.filterMap id).Nodup ∧ q ∉ rs.filterMap id := by
          have hthis : (q :: rs.filterMap id).Nodup := by simpa using hnd
          rw [List.nodup_cons] at hthis
          exact ⟨hthis.2, hthis.1⟩
        simp only [runSeq]
        rcases List.mem_cons.mp hp with he | hm
        · have hpq : p = q := by injection he
          subst hpq
          rw [hl]
          rw [runSeq_untouched dist _ rs p hnd'.2]
          exact fsLookup_update_self hl
        · have hpq : p ≠ q := by
            intro he'
            subst he'
            have : p ∈ rs.filterMap id := by
              simp only [List.mem_filterMap]
              exact ⟨some p, hm, rfl⟩
            exact hnd'.2 this
          cases hlq : fsLookup fs q with
          | none => exact (ih fs).2 hnd'.1 p c hm hl
          | some cq =>
            refine (ih (fsUpdate fs q (transformDoc dist q cq))).2 hnd'.1 p c hm ?_
            rw [fsLookup_update_other hpq]
            exact hl

/-- Claim C7 counterexample: with routes `[a.html (missing), b.html (present)]`
there is an execution in which the first event is `a.html`'s read failing —
at that point `Promise.all` rejects (fail-fast, with only `a.html`'s error)
while `b.html` has not been attempted at all (still `idle`), contradicting
"rejects only after every document has been attempted"; the sibling task
nevertheless continues and `b.html` is still transformed and written.
-/
theorem route_failure_independence_cex :
    (runEvents "/proj/dist" [0]
        ([("b.html", "<a href=\"/x\">")],
         initTasks [some "a.html", some "b.html"])).2
      = [(some "a.html", TaskPhase.failed), (some "b.html", TaskPhase.idle)] ∧
    (runEvents "/proj/dist" [0, 1, 1]
        ([("b.html", "<a href=\"/x\">")],
         initTasks [some "a.html", some "b.html"])).1
      = [("b.html", "<a href=\"file:///proj/dist/x/index.html\">")] ∧
    (runEvents "/proj/dist" [0, 1, 1]
        ([("b.html", "<a href=\"/x\">")],
         initTasks [some "a.html", some "b.html"])).2
      = [(some "a.html", TaskPhase.failed), (some "b.html", TaskPhase.done)] := by
  refine ⟨rfl, rfl, rfl⟩

/-- Witness for the amended C7 theorem: route set
`[a.html (missing), b.html (present)]` — the error list is exactly
`[a.html]` and `b.html` is still rewritten. -/
theorem route_failure_independence_witness :
    ((runSeq "/proj/dist" [("b.html", "<a href=\"/x\">")]
        [some "a.html", some "b.html"]).2
      = ([some "a.html", some "b.html"].filterMap id).filter
          (fun p => (fsLookup [("b.html", "<a href=\"/x\">")] p).isNone)) ∧
    (([some "a.html", some "b.html"].filterMap
        (id : Option String → Option String)).Nodup ∧
      fsLookup (runSeq "/proj/dist" [("b.html", "<a href=\"/x\">")]
          [some "a.html", some "b.html"]).1 "b.html"
        = some (transformDoc "/proj/dist" "b.html" "<a href=\"/x\">")) :=
  ⟨(route_failure_independence "/proj/dist" [("b.html", "<a href=\"/x\">")]
      [some "a.html", some "b.html"]).1,
   by decide,
   (route_failure_independence "/proj/dist" [("b.html", "<a href=\"/x\">")]
      [some "a.html", some "b.html"]).2 (by decide) "b.html" "<a href=\"/x\">"
     (by decide) (by decide)⟩

end AstroElectron
